import Mathlib

/-!
Shallow embedding of a FAT32 filesystem engine (boot-sector parsing, FAT
accessors, directory codec, filesystem facade) operating on a 512-byte-sector
block device, together with theorems checking the stated properties.

Bytes are modelled as `Nat` masked to `% 256` at every device read (the device
stores `u8`).  Machine-integer overflow is made explicit where it matters:
the `u32` subtraction `cluster - 2` in `cluster_to_lba` is modelled with
wrapping semantics `(cluster + 2^32 - 2) % 2^32`.  Loops whose termination
depends on the FAT contents (directory-chain walks) take an explicit fuel
parameter; fuel exhaustion models non-termination of a cyclic chain walk and
no theorem below depends on that branch.
-/

/-- Error taxonomy of the library (`error.rs`). -/
inductive Error where
  | Io
  | InvalidBootSector
  | NotFat32
  | NotFound
  | DirFull
  | NoSpace
  | InvalidName
  | Corrupt
deriving DecidableEq

/-- In-memory block device: a byte image of `size` bytes (`device.rs`,
`MemDevice`, the repository's only `BlockDevice` implementation).  The image
is a total function from byte address to stored value. -/
structure MemDev where
  data : Nat → Nat
  size : Nat

/-- List of the `n` bytes `f i, f (i + 1), ..., f (i + n - 1)`.  The
recursion is expressed with `Nat.rec` and produces the list head first, so
the kernel evaluates sector reads in linear time. -/
def bytesFrom (f : Nat → Nat) : Nat → Nat → List Nat :=
  Nat.rec (motive := fun _ => Nat → List Nat)
    (fun _ => [])
    (fun _ ih i => f i :: ih (i + 1))

/-- `read_sector`: 512 bytes at `lba`, or `Io` when out of range.  Each byte
is masked `% 256`, modelling that the device stores `u8` values. -/
def readSector (d : MemDev) (lba : Nat) : Except Error (List Nat) :=
  if lba * 512 + 512 ≤ d.size then
    .ok (bytesFrom (fun j => d.data j % 256) 512 (lba * 512))
  else
    .error .Io

/-- Byte image after overwriting the 512 bytes starting at `base` with the
contents of `buf`. -/
def updSector (dat : Nat → Nat) (base : Nat) (buf : List Nat) : Nat → Nat :=
  fun i => if base ≤ i ∧ i < base + 512 then buf.getD (i - base) 0 else dat i

/-- `write_sector`: overwrite the 512 bytes at `lba`, or `Io` when out of
range. -/
def writeSector (d : MemDev) (lba : Nat) (buf : List Nat) : Except Error MemDev :=
  if lba * 512 + 512 ≤ d.size then
    .ok ⟨updSector d.data (lba * 512) buf, d.size⟩
  else
    .error .Io

/-- `u16::from_le_bytes` applied to two consecutive bytes of a buffer. -/
def leU16 (l : List Nat) (off : Nat) : Nat :=
  l.getD off 0 + 256 * l.getD (off + 1) 0

/-- `u32::from_le_bytes` applied to four consecutive bytes of a buffer. -/
def leU32 (l : List Nat) (off : Nat) : Nat :=
  l.getD off 0 + 256 * l.getD (off + 1) 0 + 65536 * l.getD (off + 2) 0 +
    16777216 * l.getD (off + 3) 0

/-- `u16::to_le_bytes`. -/
def leBytes2 (v : Nat) : List Nat :=
  [v % 256, v / 256 % 256]

/-- `u32::to_le_bytes`. -/
def leBytes4 (v : Nat) : List Nat :=
  [v % 256, v / 256 % 256, v / 65536 % 256, v / 16777216 % 256]

/-- `buf[off..off+seg.len()].copy_from_slice(seg)` on a byte buffer. -/
def spliceAt (l : List Nat) (off : Nat) (seg : List Nat) : List Nat :=
  l.take off ++ seg ++ l.drop (off + seg.length)

/-- Parsed FAT32 BPB fields (`bpb.rs`). -/
structure Bpb where
  bytes_per_sector : Nat
  sectors_per_cluster : Nat
  reserved_sectors : Nat
  num_fats : Nat
  total_sectors_32 : Nat
  fat_size_32 : Nat
  root_cluster : Nat
  fsinfo_sector : Nat
deriving DecidableEq

/-- `Bpb::parse`: validate a 512-byte boot sector and extract the geometry
fields, with the exact check order of the source. -/
def Bpb.parse (boot : List Nat) : Except Error Bpb :=
  if boot.getD 510 0 ≠ 0x55 ∨ boot.getD 511 0 ≠ 0xAA then
    .error .InvalidBootSector
  else
    let bytes_per_sector := leU16 boot 11
    let sectors_per_cluster := boot.getD 13 0
    let reserved_sectors := leU16 boot 14
    let num_fats := boot.getD 16 0
    let root_entry_count := leU16 boot 17
    let fat_size_16 := leU16 boot 22
    let total_sectors_32 := leU32 boot 32
    let fat_size_32 := leU32 boot 36
    let root_cluster := leU32 boot 44
    let fsinfo_sector := leU16 boot 48
    if bytes_per_sector ≠ 512 then .error .InvalidBootSector
    else if root_entry_count ≠ 0 then .error .NotFat32
    else if fat_size_16 ≠ 0 then .error .NotFat32
    else if fat_size_32 = 0 ∨ root_cluster < 2 then .error .InvalidBootSector
    else if sectors_per_cluster = 0 ∨
            sectors_per_cluster &&& (sectors_per_cluster - 1) ≠ 0 then
      .error .InvalidBootSector
    else if reserved_sectors = 0 ∨ num_fats = 0 then .error .InvalidBootSector
    else
      .ok ⟨bytes_per_sector, sectors_per_cluster, reserved_sectors, num_fats,
           total_sectors_32, fat_size_32, root_cluster, fsinfo_sector⟩

/-- `EOC_MIN` (`fat.rs`): FAT32 end-of-chain marker threshold. -/
def EOC_MIN : Nat := 0x0FFFFFF8

/-- `fat_start_lba`. -/
def fat_start_lba (b : Bpb) : Nat :=
  b.reserved_sectors

/-- `data_start_lba`. -/
def data_start_lba (b : Bpb) : Nat :=
  fat_start_lba b + b.num_fats * b.fat_size_32

/-- `cluster_to_lba`.  The source computes `(cluster - 2) as u64` on a `u32`
cluster; the subtraction wraps modulo `2^32` for `cluster < 2` (release
semantics; a debug build panics on the underflow). -/
def cluster_to_lba (b : Bpb) (cluster : Nat) : Nat :=
  data_start_lba b + ((cluster + 4294967296 - 2) % 4294967296) * b.sectors_per_cluster

/-- `read_fat_entry`: locate the FAT sector holding `cluster`'s entry, read
it and mask the 32-bit little-endian word to 28 bits. -/
def read_fat_entry (d : MemDev) (b : Bpb) (cluster : Nat) : Except Error Nat :=
  let fatOffset := cluster * 4
  let sector := fat_start_lba b + fatOffset / 512
  let off := fatOffset % 512
  match readSector d sector with
  | .error e => .error e
  | .ok buf => .ok (leU32 buf off &&& 0x0FFFFFFF)

/-- `write_fat_entry`: read-modify-write of the containing FAT sector; the
stored word is `value & 0x0FFFFFFF` (top four bits written as zero). -/
def write_fat_entry (d : MemDev) (b : Bpb) (cluster : Nat) (value : Nat) :
    Except Error MemDev :=
  let fatOffset := cluster * 4
  let sector := fat_start_lba b + fatOffset / 512
  let off := fatOffset % 512
  match readSector d sector with
  | .error e => .error e
  | .ok buf => writeSector d sector (spliceAt buf off (leBytes4 (value &&& 0x0FFFFFFF)))

/-- Scan loop of `find_free_cluster`: try cluster `c`, then `c + 1`, for at
most `fuel` iterations (the source's iteration cap).  The fuel recursion is
expressed with `Nat.rec` directly so that concrete runs with the full
1,000,000-iteration cap evaluate inside the kernel. -/
def findFreeLoop (d : MemDev) (b : Bpb) (fuel : Nat) : Nat → Except Error Nat :=
  Nat.rec (motive := fun _ => Nat → Except Error Nat)
    (fun _ => .error .NoSpace)
    (fun _ ih c =>
      match read_fat_entry d b c with
      | .error e => .error e
      | .ok v => if v = 0 then .ok c else ih (c + 1))
    fuel

/-- `find_free_cluster`: linear scan upward from `max(start_from, 2)` capped
at 1,000,000 iterations. -/
def find_free_cluster (d : MemDev) (b : Bpb) (start_from : Nat) : Except Error Nat :=
  findFreeLoop d b 1000000 (if start_from < 2 then 2 else start_from)

/-- Parsed 8.3 directory entry (`dir.rs`). -/
structure DirEntry where
  raw_name : List Nat
  attr : Nat
  first_cluster : Nat
  file_size : Nat
deriving DecidableEq

/-- `DirEntry::parse` of a 32-byte record: `none` on the end-of-directory
marker (first byte 0), placeholder entries for deleted slots (first byte
0xE5) and long-name parts (attribute 0x0F), otherwise the decoded fields. -/
def DirEntry.parse (r : List Nat) : Except Error (Option DirEntry) :=
  let first := r.getD 0 0
  if first = 0x00 then .ok none
  else if first = 0xE5 then .ok (some ⟨List.replicate 11 0, 0, 0, 0⟩)
  else
    let attr := r.getD 11 0
    if attr = 0x0F then .ok (some ⟨List.replicate 11 0, attr, 0, 0⟩)
    else
      let hi := leU16 r 20
      let lo := leU16 r 26
      .ok (some ⟨r.take 11, attr, (hi <<< 16) ||| lo, leU32 r 28⟩)

/-- `DirEntry::build_short_file`: encode a 32-byte record with the 11-byte
name, archive attribute 0x20, the split first-cluster number and the file
size; all remaining bytes zero. -/
def DirEntry.build_short_file (name_83 : List Nat) (first_cluster : Nat)
    (file_size : Nat) : List Nat :=
  name_83.take 11 ++ [0x20] ++ List.replicate 8 0 ++
    leBytes2 (first_cluster >>> 16) ++ List.replicate 4 0 ++
    leBytes2 (first_cluster &&& 0xFFFF) ++ leBytes4 file_size

/-- `split_once('.')` on a byte string: parts around the first 0x2E byte, or
`(s, [])` when there is none (the source treats both the same way). -/
def splitDot : List Nat → List Nat × List Nat
  | [] => ([], [])
  | c :: rest =>
    if c = 46 then ([], rest)
    else
      let p := splitDot rest
      (c :: p.1, p.2)

/-- `u8::to_ascii_uppercase`. -/
def upChar (c : Nat) : Nat :=
  if 97 ≤ c ∧ c ≤ 122 then c - 32 else c

/-- `ok_char` of `to_short_name_83`: uppercase letters, digits, underscore
and dash. -/
def okChar (c : Nat) : Bool :=
  (65 ≤ c ∧ c ≤ 90) ∨ (48 ≤ c ∧ c ≤ 57) ∨ c = 95 ∨ c = 45

/-- `to_short_name_83`: normalize a name to the space-padded 11-byte 8.3
form, or fail with `InvalidName`. -/
def to_short_name_83 (s : List Nat) : Except Error (List Nat) :=
  let p := splitDot s
  let name := p.1
  let ext := p.2
  if name = [] ∨ name.length > 8 ∨ ext.length > 3 then .error .InvalidName
  else if (name.map upChar).all okChar ∧ (ext.map upChar).all okChar then
    .ok (name.map upChar ++ List.replicate (8 - name.length) 32 ++
         ext.map upChar ++ List.replicate (3 - ext.length) 32)
  else .error .InvalidName

/-- FAT32 filesystem handle (`fs.rs`). -/
structure Fat32 where
  dev : MemDev
  bpb : Bpb

/-- `Fat32::mount`: read sector 0 and parse it. -/
def Fat32.mount (d : MemDev) : Except Error Fat32 :=
  match readSector d 0 with
  | .error e => .error e
  | .ok boot =>
    match Bpb.parse boot with
    | .error e => .error e
    | .ok b => .ok ⟨d, b⟩

/-- Slot scan of `list_root` within one sector: parse the 32-byte records in
order, skipping deleted/LFN placeholders; the `Bool` is `true` when the
end-of-directory marker was hit (early return of the whole listing). -/
def listSlots (buf : List Nat) : Nat → Nat → List DirEntry →
    Except Error (List DirEntry × Bool)
  | 0, _, acc => .ok (acc, false)
  | n + 1, i, acc =>
    match DirEntry.parse ((buf.drop (i * 32)).take 32) with
    | .error e => .error e
    | .ok none => .ok (acc, true)
    | .ok (some e) =>
      if e.attr = 0x0F ∨
         (e.first_cluster = 0 ∧ e.file_size = 0 ∧ e.raw_name = List.replicate 11 0) then
        listSlots buf n (i + 1) acc
      else
        listSlots buf n (i + 1) (acc ++ [e])

/-- Sector scan of `list_root` within one cluster. -/
def listSectors (d : MemDev) (baseLba : Nat) : Nat → Nat → List DirEntry →
    Except Error (List DirEntry × Bool)
  | 0, _, acc => .ok (acc, false)
  | n + 1, s, acc =>
    match readSector d (baseLba + s) with
    | .error e => .error e
    | .ok buf =>
      match listSlots buf 16 0 acc with
      | .error e => .error e
      | .ok (acc', true) => .ok (acc', true)
      | .ok (acc', false) => listSectors d baseLba n (s + 1) acc'

/-- Cluster-chain walk of `list_root`.  `fuel` bounds the walk (the source
loops until end-of-chain and would not terminate on a cyclic chain). -/
def listRootLoop (d : MemDev) (b : Bpb) : Nat → Nat → List DirEntry →
    Except Error (List DirEntry)
  | 0, _, _ => .error .Io
  | fuel + 1, cluster, acc =>
    match listSectors d (cluster_to_lba b cluster) b.sectors_per_cluster 0 acc with
    | .error e => .error e
    | .ok (acc', true) => .ok acc'
    | .ok (acc', false) =>
      match read_fat_entry d b cluster with
      | .error e => .error e
      | .ok next =>
        if EOC_MIN ≤ next then .ok acc'
        else if next < 2 then .error .Corrupt
        else listRootLoop d b fuel next acc'

/-- `Fat32::list_root`. -/
def Fat32.list_root (fs : Fat32) (fuel : Nat) : Except Error (List DirEntry) :=
  listRootLoop fs.dev fs.bpb fuel fs.bpb.root_cluster []

/-- Sector scan of `read_file_root` within one cluster: append
`min(remaining, 512)` bytes per sector, stopping early when the size is
exhausted; returns the data so far and the bytes still outstanding. -/
def readClusterSectors (d : MemDev) (baseLba : Nat) : Nat → Nat → Nat → List Nat →
    Except Error (List Nat × Nat)
  | 0, _, remaining, acc => .ok (acc, remaining)
  | n + 1, s, remaining, acc =>
    match readSector d (baseLba + s) with
    | .error e => .error e
    | .ok buf =>
      let tk := min remaining 512
      let acc' := acc ++ buf.take tk
      let r' := remaining - tk
      if r' = 0 then .ok (acc', 0)
      else readClusterSectors d baseLba n (s + 1) r' acc'

/-- Cluster-chain walk of `read_file_root`.  Note that, as in the source, a
successor below 2 is not rejected here: only the end-of-chain threshold is
checked. -/
def readLoop (d : MemDev) (b : Bpb) : Nat → Nat → Nat → List Nat →
    Except Error (List Nat)
  | 0, remaining, _, acc => if remaining = 0 then .ok acc else .error .Io
  | fuel + 1, remaining, cluster, acc =>
    if remaining = 0 then .ok acc
    else
      match readClusterSectors d (cluster_to_lba b cluster) b.sectors_per_cluster
          0 remaining acc with
      | .error e => .error e
      | .ok (acc', r') =>
        if r' = 0 then .ok acc'
        else
          match read_fat_entry d b cluster with
          | .error e => .error e
          | .ok next =>
            if EOC_MIN ≤ next then .error .Corrupt
            else readLoop d b fuel r' next acc'

/-- `Fat32::read_file_root`: normalize the name, find the first matching
root entry, validate its first cluster, then follow the chain collecting
`file_size` bytes. -/
def Fat32.read_file_root (fs : Fat32) (fuel : Nat) (name : List Nat) :
    Except Error (List Nat) :=
  match to_short_name_83 name with
  | .error e => .error e
  | .ok target =>
    match fs.list_root fuel with
    | .error e => .error e
    | .ok entries =>
      match entries.find? (fun e => e.raw_name == target) with
      | none => .error .NotFound
      | some e =>
        if e.first_cluster < 2 then .error .Corrupt
        else readLoop fs.dev fs.bpb fuel e.file_size e.first_cluster []

/-- Allocation loop of `write_file_root` step 1: find a free cluster, mark
it end-of-chain at once (so the next scan cannot claim it), append it to the
chain and continue the search just above it. -/
def allocChain (b : Bpb) : Nat → Nat → MemDev → List Nat →
    Except Error (List Nat × MemDev)
  | 0, _, d, acc => .ok (acc, d)
  | n + 1, nextSearch, d, acc =>
    match find_free_cluster d b nextSearch with
    | .error e => .error e
    | .ok c =>
      match write_fat_entry d b c 0x0FFFFFFF with
      | .error e => .error e
      | .ok d' => allocChain b n (c + 1) d' (acc ++ [c])

/-- Linking loop of `write_file_root` step 1: point each cluster's FAT entry
at its successor, the last one at the end-of-chain value. -/
def linkChain (b : Bpb) : List Nat → MemDev → Except Error MemDev
  | [], d => .ok d
  | [c], d => write_fat_entry d b c 0x0FFFFFFF
  | c :: c2 :: rest, d =>
    match write_fat_entry d b c c2 with
    | .error e => .error e
    | .ok d' => linkChain b (c2 :: rest) d'

/-- Data-writing loop of `write_file_root` step 2 within one cluster: write
each sector from the content slice at `offset`, zero-padding the tail. -/
def writeDataSectors (content : List Nat) (baseLba : Nat) : Nat → Nat → Nat →
    MemDev → Except Error (MemDev × Nat)
  | 0, _, offset, d => .ok (d, offset)
  | n + 1, s, offset, d =>
    let remain := content.length - offset
    let tk := min remain 512
    let sector := (content.drop offset).take tk ++ List.replicate (512 - tk) 0
    match writeSector d (baseLba + s) sector with
    | .error e => .error e
    | .ok d' => writeDataSectors content baseLba n (s + 1) (offset + tk) d'

/-- Data-writing loop of `write_file_root` step 2 over the cluster chain. -/
def writeDataClusters (b : Bpb) (content : List Nat) : List Nat → Nat → MemDev →
    Except Error (MemDev × Nat)
  | [], offset, d => .ok (d, offset)
  | c :: rest, offset, d =>
    match writeDataSectors content (cluster_to_lba b c) b.sectors_per_cluster
        0 offset d with
    | .error e => .error e
    | .ok (d', offset') => writeDataClusters b content rest offset' d'

/-- Slot scan of `write_root_dir_entry_first_free` within one sector: index
of the first slot whose first byte is 0x00 or 0xE5. -/
def findFreeSlot (buf : List Nat) : Nat → Nat → Option Nat
  | 0, _ => none
  | n + 1, i =>
    if buf.getD (i * 32) 0 = 0x00 ∨ buf.getD (i * 32) 0 = 0xE5 then some i
    else findFreeSlot buf n (i + 1)

/-- Sector scan of `write_root_dir_entry_first_free` within one cluster:
write the record into the first free slot found, if any. -/
def dirSectorScan (ent : List Nat) (d : MemDev) (baseLba : Nat) : Nat → Nat →
    Except Error (Option MemDev)
  | 0, _ => .ok none
  | n + 1, s =>
    match readSector d (baseLba + s) with
    | .error e => .error e
    | .ok buf =>
      match findFreeSlot buf 16 0 with
      | some i =>
        match writeSector d (baseLba + s) (spliceAt buf (i * 32) ent) with
        | .error e => .error e
        | .ok d' => .ok (some d')
      | none => dirSectorScan ent d baseLba n (s + 1)

/-- Cluster-chain walk of `write_root_dir_entry_first_free` (fuel-bounded as
for `list_root`). -/
def writeRootDirLoop (b : Bpb) (ent : List Nat) : Nat → Nat → MemDev →
    Except Error MemDev
  | 0, _, _ => .error .Io
  | fuel + 1, cluster, d =>
    match dirSectorScan ent d (cluster_to_lba b cluster) b.sectors_per_cluster 0 with
    | .error e => .error e
    | .ok (some d') => .ok d'
    | .ok none =>
      match read_fat_entry d b cluster with
      | .error e => .error e
      | .ok next =>
        if EOC_MIN ≤ next then .error .DirFull
        else if next < 2 then .error .Corrupt
        else writeRootDirLoop b ent fuel next d

/-- `clusters_for_len`: `ceil(len / (sectors_per_cluster * 512))`. -/
def clusters_for_len (b : Bpb) (len : Nat) : Nat :=
  (len + b.sectors_per_cluster * 512 - 1) / (b.sectors_per_cluster * 512)

/-- `Fat32::write_file_root`: normalize the name, allocate and link a fresh
cluster chain, write the content, then store a directory entry in the first
free root slot. -/
def Fat32.write_file_root (fs : Fat32) (fuel : Nat) (name : List Nat)
    (content : List Nat) : Except Error Fat32 :=
  match to_short_name_83 name with
  | .error e => .error e
  | .ok short =>
    let needed := clusters_for_len fs.bpb content.length
    if needed = 0 then .error .InvalidName
    else
      match allocChain fs.bpb needed 2 fs.dev [] with
      | .error e => .error e
      | .ok (chain, d1) =>
        match linkChain fs.bpb chain d1 with
        | .error e => .error e
        | .ok d2 =>
          match writeDataClusters fs.bpb content chain 0 d2 with
          | .error e => .error e
          | .ok (d3, _) =>
            let ent := DirEntry.build_short_file short (chain.headD 0)
              content.length
            match writeRootDirLoop fs.bpb ent fuel fs.bpb.root_cluster d3 with
            | .error e => .error e
            | .ok d4 => .ok ⟨d4, fs.bpb⟩

/-- Boot sector bytes of the tiny test volume (patterned on the image the
repository's own test builds): 512-byte sectors, 1 sector per cluster, 1
reserved sector, 1 FAT of 1 sector, root cluster 2. -/
def bootByte (i : Nat) : Nat :=
  if i = 510 then 0x55 else if i = 511 then 0xAA
  else if i = 11 then 0 else if i = 12 then 2
  else if i = 13 then 1
  else if i = 14 then 1 else if i = 15 then 0
  else if i = 16 then 1
  else if i = 32 then 5
  else if i = 36 then 1
  else if i = 44 then 2
  else 0

/-- Geometry obtained by parsing `bootByte`. -/
def bpb0 : Bpb := ⟨512, 1, 1, 1, 5, 1, 2, 0⟩

/-- FAT sector bytes of the tiny volume: clusters 0 and 1 reserved, cluster
2 (root) end-of-chain, all further clusters free. -/
def fatByte0 (j : Nat) : Nat :=
  if j = 0 then 248 else if j < 12 then (if j % 4 = 3 then 15 else 255) else 0

/-- The tiny test volume: boot sector, FAT sector, root-directory cluster 2
and free clusters 3 and 4 (five sectors in all). -/
def dev0 : MemDev :=
  ⟨fun i => if i < 512 then bootByte i else if i < 1024 then fatByte0 (i - 512) else 0,
   2560⟩

/-- FAT sector bytes of a volume whose root cluster 2 has FAT entry 0, i.e.
the root directory cluster itself is marked free. -/
def fatByteFreeRoot (j : Nat) : Nat :=
  if j = 0 then 248 else if j < 8 then (if j % 4 = 3 then 15 else 255) else 0

/-- Volume whose root-directory cluster is marked free in the FAT (three
sectors: boot, FAT, root/data). -/
def devFreeRoot : MemDev :=
  ⟨fun i => if i < 512 then bootByte i else if i < 1024 then fatByteFreeRoot (i - 512)
            else 0,
   1536⟩

/-- Two-sector volume (boot sector and FAT sector) on which every readable
FAT entry is the non-zero value 0x0FFFFFFF. -/
def devFull : MemDev :=
  ⟨fun i => if i < 512 then bootByte i else 255, 1024⟩

/-- Root-directory record for file `B.BIN`, first cluster 3, size 600. -/
def rootByte3 (j : Nat) : Nat :=
  if j = 0 then 66 else if j < 8 then 32
  else if j = 8 then 66 else if j = 9 then 73 else if j = 10 then 78
  else if j = 11 then 32 else if j = 26 then 3
  else if j = 28 then 88 else if j = 29 then 2 else 0

/-- FAT sector bytes giving cluster 3 the successor value 1 (below 2 and not
an end-of-chain marker). -/
def fatByteSucc1 (j : Nat) : Nat :=
  if j = 0 then 248 else if j < 12 then (if j % 4 = 3 then 15 else 255)
  else if j = 12 then 1 else 0

/-- Volume holding `B.BIN` (size 600, first cluster 3) whose cluster 3 has
FAT successor 1: four sectors (boot, FAT, root, data of cluster 3). -/
def devSucc1 : MemDev :=
  ⟨fun i => if i < 512 then bootByte i else if i < 1024 then fatByteSucc1 (i - 512)
            else if i < 1536 then rootByte3 (i - 1024) else 0,
   2048⟩

/-- FAT sector bytes marking clusters 0 to 3 all end-of-chain. -/
def fatByteEoc3 (j : Nat) : Nat :=
  if j = 0 then 248 else if j < 16 then (if j % 4 = 3 then 15 else 255) else 0

/-- Volume holding `B.BIN` (size 600, first cluster 3) whose single-cluster
chain ends at cluster 3 although 600 bytes are recorded. -/
def devEoc3 : MemDev :=
  ⟨fun i => if i < 512 then bootByte i else if i < 1024 then fatByteEoc3 (i - 512)
            else if i < 1536 then rootByte3 (i - 1024) else 0,
   2048⟩

/-- Bytes of the name `HELLO.TXT`. -/
def nameHello : List Nat := [72, 69, 76, 76, 79, 46, 84, 88, 84]

/-- Bytes of the name `BIG.BIN`. -/
def nameBig : List Nat := [66, 73, 71, 46, 66, 73, 78]

/-- Bytes of the name `B.BIN`. -/
def nameB : List Nat := [66, 46, 66, 73, 78]

/-- Bytes of the name `A`. -/
def nameA : List Nat := [65]

/-- Content of `sectors_per_cluster * 512 + 1 = 513` bytes: 512 ones and a
final 2 spilling into a second cluster. -/
def content513 : List Nat := List.replicate 512 1 ++ [2]

/-- A large device every byte of which reads 0xFF: every FAT entry within the
1,000,000-iteration scan range is readable and non-zero. -/
def devBig : MemDev := ⟨fun _ => 255, 4096000⟩

/-- Geometry used with `devBig`. -/
def bpbBig : Bpb := ⟨512, 1, 1, 1, 8000, 1, 2, 0⟩

/-- Device obtained from `dev0` by writing FAT entry 5 (byte offset 20 of the
FAT sector at LBA 1). -/
def devW : MemDev :=
  ⟨updSector dev0.data 512 (spliceAt (bytesFrom (fun j => dev0.data j % 256)
    512 512) 20 (leBytes4 268435455)), 2560⟩

/-- Modelled from the spec: the valid 8.3 shape — a nonempty base of at most
8 characters, an extension of at most 3, characters (after uppercase
folding) drawn from A-Z, 0-9, underscore and dash, around at most one
separator. -/
def specValid83 (s : List Nat) : Bool :=
  let p := splitDot s
  !p.1.isEmpty && decide (p.1.length ≤ 8) && decide (p.2.length ≤ 3) &&
    (p.1.map upChar).all okChar && (p.2.map upChar).all okChar

/-- Modelled from the spec: the space-padded 11-byte fixed form of a valid
name. -/
def shortForm83 (s : List Nat) : List Nat :=
  let p := splitDot s
  p.1.map upChar ++ List.replicate (8 - p.1.length) 32 ++
    p.2.map upChar ++ List.replicate (3 - p.2.length) 32

/-- Error component of a result, for stating failures of operations whose
success value carries a device. -/
def errOf {α : Type} : Except Error α → Option Error
  | .ok _ => none
  | .error e => some e

instance {ε α : Type} [DecidableEq ε] [DecidableEq α] : DecidableEq (Except ε α) :=
  fun x y =>
    match x, y with
    | .ok a, .ok b =>
      if h : a = b then .isTrue (by rw [h]) else .isFalse (by intro hh; cases hh; exact h rfl)
    | .error a, .error b =>
      if h : a = b then .isTrue (by rw [h]) else .isFalse (by intro hh; cases hh; exact h rfl)
    | .ok _, .error _ => .isFalse (by intro hh; cases hh)
    | .error _, .ok _ => .isFalse (by intro hh; cases hh)

set_option maxRecDepth 1000000
set_option maxHeartbeats 10000000

lemma bytesFrom_succ (f : Nat → Nat) (n i : Nat) :
    bytesFrom f (n + 1) i = f i :: bytesFrom f n (i + 1) := rfl

lemma length_bytesFrom (f : Nat → Nat) : ∀ n i, (bytesFrom f n i).length = n := by
  intro n
  induction n with
  | zero => intro i; rfl
  | succ m ih => intro i; rw [bytesFrom_succ]; simp [ih]

lemma getD_bytesFrom (f : Nat → Nat) :
    ∀ n i k dflt, k < n → (bytesFrom f n i).getD k dflt = f (i + k) := by
  intro n
  induction n with
  | zero => intro i k dflt h; omega
  | succ m ih =>
    intro i k dflt h
    rw [bytesFrom_succ]
    cases k with
    | zero => simp
    | succ k' =>
      rw [List.getD_cons_succ, ih (i + 1) k' dflt (by omega)]
      congr 1
      omega

lemma updSector_in (dat : Nat → Nat) (base : Nat) (buf : List Nat) (i : Nat)
    (h1 : base ≤ i) (h2 : i < base + 512) :
    updSector dat base buf i = buf.getD (i - base) 0 := by
  unfold updSector
  rw [if_pos ⟨h1, h2⟩]

lemma updSector_out (dat : Nat → Nat) (base : Nat) (buf : List Nat) (i : Nat)
    (h : i < base ∨ base + 512 ≤ i) :
    updSector dat base buf i = dat i := by
  unfold updSector
  rw [if_neg (by omega)]

lemma getD_spliceAt_abs (l seg : List Nat) (off n : Nat)
    (h1 : off ≤ n) (h2 : n < off + seg.length) (hoff : off ≤ l.length) :
    (spliceAt l off seg).getD n 0 = seg.getD (n - off) 0 := by
  unfold spliceAt
  rw [List.getD_append _ _ _ _ (by rw [List.length_append, List.length_take]; omega)]
  rw [List.getD_append_right _ _ _ _ (by rw [List.length_take]; omega)]
  congr 1
  rw [List.length_take]
  omega

lemma getD_spliceAt_left (l seg : List Nat) (off n : Nat)
    (hn : n < off) (hoff : off ≤ l.length) :
    (spliceAt l off seg).getD n 0 = l.getD n 0 := by
  unfold spliceAt
  rw [List.getD_append _ _ _ _ (by rw [List.length_append, List.length_take]; omega)]
  rw [List.getD_append _ _ _ _ (by rw [List.length_take]; omega)]
  rw [List.getD_eq_getElem?_getD, List.getElem?_take, if_pos hn,
    ← List.getD_eq_getElem?_getD]

lemma getD_spliceAt_right (l seg : List Nat) (off n : Nat)
    (hn : off + seg.length ≤ n) (hoff : off ≤ l.length) :
    (spliceAt l off seg).getD n 0 = l.getD n 0 := by
  unfold spliceAt
  rw [List.getD_append_right _ _ _ _
    (by rw [List.length_append, List.length_take]; omega)]
  rw [List.getD_eq_getElem?_getD, List.getElem?_drop, ← List.getD_eq_getElem?_getD]
  congr 1
  rw [List.length_append, List.length_take]
  omega

lemma leU32_bytesFrom (f : Nat → Nat) (base off : Nat) (h : off + 3 < 512) :
    leU32 (bytesFrom f 512 base) off =
      f (base + off) + 256 * f (base + (off + 1)) + 65536 * f (base + (off + 2)) +
        16777216 * f (base + (off + 3)) := by
  unfold leU32
  rw [getD_bytesFrom _ _ _ _ _ (by omega), getD_bytesFrom _ _ _ _ _ (by omega),
      getD_bytesFrom _ _ _ _ _ (by omega), getD_bytesFrom _ _ _ _ _ (by omega)]

lemma mask28 (x : Nat) : x &&& 0x0FFFFFFF = x % 268435456 := by
  have h28 := Nat.and_pow_two_sub_one_eq_mod x 28
  norm_num at h28
  exact h28

lemma findFreeLoop_zero (d : MemDev) (b : Bpb) (c : Nat) :
    findFreeLoop d b 0 c = .error .NoSpace := rfl

lemma findFreeLoop_succ (d : MemDev) (b : Bpb) (fuel c : Nat) :
    findFreeLoop d b (fuel + 1) c =
      match read_fat_entry d b c with
      | .error e => .error e
      | .ok v => if v = 0 then .ok c else findFreeLoop d b fuel (c + 1) := rfl

lemma findFreeLoop_nospace (d : MemDev) (b : Bpb) :
    ∀ fuel c0, (∀ c, c0 ≤ c → c < c0 + fuel →
      ∃ v, read_fat_entry d b c = .ok v ∧ v ≠ 0) →
    findFreeLoop d b fuel c0 = .error .NoSpace := by
  intro fuel
  induction fuel with
  | zero => intro c0 _; rfl
  | succ n ih =>
    intro c0 h
    obtain ⟨v, hv, hv0⟩ := h c0 (Nat.le_refl c0) (by omega)
    rw [findFreeLoop_succ]
    rw [hv]
    dsimp only
    rw [if_neg hv0]
    exact ih (c0 + 1) (fun c h1 h2 => h c (by omega) (by omega))

lemma findFreeLoop_ok (d : MemDev) (b : Bpb) :
    ∀ fuel c0 c, findFreeLoop d b fuel c0 = .ok c →
      read_fat_entry d b c = .ok 0 ∧ c0 ≤ c := by
  intro fuel
  induction fuel with
  | zero => intro c0 c h; cases h
  | succ n ih =>
    intro c0 c h
    rw [findFreeLoop_succ] at h
    cases hv : read_fat_entry d b c0 with
    | error e => rw [hv] at h; cases h
    | ok v =>
      rw [hv] at h
      dsimp only at h
      by_cases h0 : v = 0
      · rw [if_pos h0] at h
        cases h
        exact ⟨by rw [hv, h0], Nat.le_refl c0⟩
      · rw [if_neg h0] at h
        obtain ⟨he, hle⟩ := ih (c0 + 1) c h
        exact ⟨he, by omega⟩

lemma allocChain_step (d : MemDev) (b : Bpb) (n s : Nat) (acc : List Nat)
    (r : List Nat × MemDev) (h : allocChain b (n + 1) s d acc = .ok r) :
    ∃ c d', find_free_cluster d b s = .ok c ∧
      write_fat_entry d b c 0x0FFFFFFF = .ok d' ∧
      allocChain b n (c + 1) d' (acc ++ [c]) = .ok r := by
  unfold allocChain at h
  cases hf : find_free_cluster d b s with
  | error e => rw [hf] at h; cases h
  | ok c =>
    rw [hf] at h
    dsimp only at h
    cases hw : write_fat_entry d b c 0x0FFFFFFF with
    | error e => rw [hw] at h; cases h
    | ok d' =>
      rw [hw] at h
      exact ⟨c, d', rfl, hw, h⟩

lemma allocChain_chain' (b : Bpb) :
    ∀ n s d acc chain d', (∀ x ∈ acc, x < s) → List.Chain' (· < ·) acc →
      allocChain b n s d acc = .ok (chain, d') → List.Chain' (· < ·) chain := by
  intro n
  induction n with
  | zero =>
    intro s d acc chain d' _ hacc h
    cases h
    exact hacc
  | succ m ih =>
    intro s d acc chain d' hlt hacc h
    obtain ⟨c, dd, hf, hw, hrest⟩ := allocChain_step d b m s acc (chain, d') h
    have hsc : s ≤ c := by
      have := (findFreeLoop_ok d b 1000000 (if s < 2 then 2 else s) c hf).2
      by_cases hs : s < 2 <;> simp [hs] at this <;> omega
    refine ih (c + 1) dd (acc ++ [c]) chain d' ?_ ?_ hrest
    · intro x hx
      rcases List.mem_append.mp hx with hx | hx
      · have := hlt x hx; omega
      · simp at hx; omega
    · rw [List.chain'_append]
      refine ⟨hacc, List.chain'_singleton c, ?_⟩
      intro x hx y hy
      simp at hy
      subst hy
      have hxm : x ∈ acc := List.mem_of_mem_getLast? hx
      have := hlt x hxm
      omega

lemma write_fat_entry_ok (d : MemDev) (b : Bpb) (c v : Nat) (d' : MemDev)
    (h : write_fat_entry d b c v = .ok d') :
    (fat_start_lba b + c * 4 / 512) * 512 + 512 ≤ d.size ∧
    d' = ⟨updSector d.data ((fat_start_lba b + c * 4 / 512) * 512)
      (spliceAt (bytesFrom (fun j => d.data j % 256) 512
        ((fat_start_lba b + c * 4 / 512) * 512))
        (c * 4 % 512) (leBytes4 (v &&& 0x0FFFFFFF))), d.size⟩ := by
  unfold write_fat_entry at h
  dsimp only at h
  unfold readSector writeSector at h
  by_cases hbd : (fat_start_lba b + c * 4 / 512) * 512 + 512 ≤ d.size
  · rw [if_pos hbd] at h
    dsimp only at h
    rw [if_pos hbd] at h
    injection h with h
    exact ⟨hbd, h.symm⟩
  · rw [if_neg hbd] at h
    cases h

lemma read_after_write_fat_same (d : MemDev) (b : Bpb) (c v : Nat) (d' : MemDev)
    (h : write_fat_entry d b c v = .ok d') :
    read_fat_entry d' b c = .ok (v &&& 0x0FFFFFFF) := by
  obtain ⟨hbd, hd'⟩ := write_fat_entry_ok d b c v d' h
  subst hd'
  simp only [read_fat_entry, readSector]
  rw [if_pos hbd]
  change Except.ok (leU32 _ (c * 4 % 512) &&& 268435455) =
    Except.ok (v &&& 268435455)
  rw [leU32_bytesFrom _ _ _ (by omega)]
  rw [updSector_in _ _ _ _ (by omega) (by omega),
      updSector_in _ _ _ _ (by omega) (by omega),
      updSector_in _ _ _ _ (by omega) (by omega),
      updSector_in _ _ _ _ (by omega) (by omega)]
  simp only [Nat.add_sub_cancel_left]
  rw [getD_spliceAt_abs _ _ _ _ (by omega) (by simp [leBytes4]; try omega)
        (by simp [length_bytesFrom]; try omega),
      getD_spliceAt_abs _ _ _ _ (by omega) (by simp [leBytes4]; try omega)
        (by simp [length_bytesFrom]; try omega),
      getD_spliceAt_abs _ _ _ _ (by omega) (by simp [leBytes4]; try omega)
        (by simp [length_bytesFrom]; try omega),
      getD_spliceAt_abs _ _ _ _ (by omega) (by simp [leBytes4]; try omega)
        (by simp [length_bytesFrom]; try omega)]
  rw [show c * 4 % 512 - c * 4 % 512 = 0 from by omega,
      show c * 4 % 512 + 1 - c * 4 % 512 = 1 from by omega,
      show c * 4 % 512 + 2 - c * 4 % 512 = 2 from by omega,
      show c * 4 % 512 + 3 - c * 4 % 512 = 3 from by omega]
  rw [show ∀ x : Nat, (leBytes4 x).getD 0 0 = x % 256 from fun _ => rfl,
      show ∀ x : Nat, (leBytes4 x).getD 1 0 = x / 256 % 256 from fun _ => rfl,
      show ∀ x : Nat, (leBytes4 x).getD 2 0 = x / 65536 % 256 from fun _ => rfl,
      show ∀ x : Nat, (leBytes4 x).getD 3 0 = x / 16777216 % 256 from fun _ => rfl]
  simp only [mask28]
  exact congrArg Except.ok (by omega)

lemma read_after_write_fat_other (d : MemDev) (b : Bpb) (c v : Nat) (d' : MemDev)
    (h : write_fat_entry d b c v = .ok d') (c' : Nat) (hne : c' ≠ c) :
    read_fat_entry d' b c' = read_fat_entry d b c' := by
  obtain ⟨hbd, hd'⟩ := write_fat_entry_ok d b c v d' h
  subst hd'
  simp only [read_fat_entry, readSector]
  by_cases hb' : (fat_start_lba b + c' * 4 / 512) * 512 + 512 ≤ d.size
  · rw [if_pos hb', if_pos hb']
    change Except.ok (leU32 _ (c' * 4 % 512) &&& 268435455) =
      Except.ok (leU32 _ (c' * 4 % 512) &&& 268435455)
    rw [leU32_bytesFrom _ _ _ (by omega), leU32_bytesFrom _ _ _ (by omega)]
    by_cases hsec : c' * 4 / 512 = c * 4 / 512
    · have key : ∀ k, k < 512 → (k < c * 4 % 512 ∨ c * 4 % 512 + 4 ≤ k) →
          updSector d.data ((fat_start_lba b + c * 4 / 512) * 512)
            (spliceAt (bytesFrom (fun j => d.data j % 256) 512
              ((fat_start_lba b + c * 4 / 512) * 512))
              (c * 4 % 512) (leBytes4 (v &&& 268435455)))
            ((fat_start_lba b + c' * 4 / 512) * 512 + k) % 256 =
          d.data ((fat_start_lba b + c' * 4 / 512) * 512 + k) % 256 := by
        intro k hk hdisj
        rw [hsec]
        rw [updSector_in _ _ _ _ (by omega) (by omega), Nat.add_sub_cancel_left]
        rcases hdisj with hlt | hge
        · rw [getD_spliceAt_left _ _ _ _ hlt (by simp [length_bytesFrom]; try omega)]
          rw [getD_bytesFrom _ _ _ _ _ hk]
          omega
        · rw [getD_spliceAt_right _ _ _ _ (by simp [leBytes4]; try omega)
            (by simp [length_bytesFrom]; try omega)]
          rw [getD_bytesFrom _ _ _ _ _ hk]
          omega
      rw [key (c' * 4 % 512) (by omega) (by omega),
          key (c' * 4 % 512 + 1) (by omega) (by omega),
          key (c' * 4 % 512 + 2) (by omega) (by omega),
          key (c' * 4 % 512 + 3) (by omega) (by omega)]
    · have key2 : ∀ k, k < 512 →
          updSector d.data ((fat_start_lba b + c * 4 / 512) * 512)
            (spliceAt (bytesFrom (fun j => d.data j % 256) 512
              ((fat_start_lba b + c * 4 / 512) * 512))
              (c * 4 % 512) (leBytes4 (v &&& 268435455)))
            ((fat_start_lba b + c' * 4 / 512) * 512 + k) =
          d.data ((fat_start_lba b + c' * 4 / 512) * 512 + k) := by
        intro k hk
        exact updSector_out _ _ _ _ (by omega)
      rw [key2 (c' * 4 % 512) (by omega), key2 (c' * 4 % 512 + 1) (by omega),
          key2 (c' * 4 % 512 + 2) (by omega), key2 (c' * 4 % 512 + 3) (by omega)]
  · rw [if_neg hb', if_neg hb']

/-- C1 (counterexample): on a mountable volume whose root-directory cluster
is itself marked free in the FAT, `write_file_root` of name `A` with the
single byte 0 succeeds, but the immediately following `read_file_root`
returns the byte 0x41 (the allocator claimed the root cluster, so the
directory-entry write overwrote the file's first byte), refuting the claim
for every mounted volume. -/
theorem c1_roundtrip_counterexample :
    Fat32.mount devFreeRoot = .ok ⟨devFreeRoot, bpb0⟩ ∧
    (Fat32.write_file_root ⟨devFreeRoot, bpb0⟩ 100 nameA [0]).bind
      (fun fs' => Fat32.read_file_root fs' 100 nameA) = .ok [65] ∧
    ([65] : List Nat) ≠ [0] :=
  ⟨by rfl, by decide, by decide⟩

/-- C1 (amended): on the canonical tiny test volume, writing `HELLO.TXT`
with bytes `abc` and then reading it back yields exactly those three bytes,
with the root listing recording size 3; and writing content of length
`sectors_per_cluster * 512 + 1 = 513` allocates two distinct clusters
(3 linked to 4, 4 end-of-chain) and reads back the exact 513 bytes. -/
theorem c1_roundtrip_amended :
    Fat32.mount dev0 = .ok ⟨dev0, bpb0⟩ ∧
    (Fat32.write_file_root ⟨dev0, bpb0⟩ 100 nameHello [97, 98, 99]).map
      (fun fs' => (Fat32.read_file_root fs' 100 nameHello, fs'.list_root 100)) =
      .ok (.ok [97, 98, 99],
           .ok [⟨[72, 69, 76, 76, 79, 32, 32, 32, 84, 88, 84], 32, 3, 3⟩]) ∧
    content513.length = bpb0.sectors_per_cluster * 512 + 1 ∧
    (Fat32.write_file_root ⟨dev0, bpb0⟩ 100 nameBig content513).map
      (fun fs' => (Fat32.read_file_root fs' 100 nameBig,
                   read_fat_entry fs'.dev bpb0 3, read_fat_entry fs'.dev bpb0 4)) =
      .ok (.ok content513, .ok 4, .ok 268435455) ∧
    EOC_MIN ≤ 268435455 ∧ (3 : Nat) ≠ 4 :=
  ⟨by rfl, by decide, by decide, by decide, by decide, by decide⟩

/-- C2 (counterexample): on a mounted two-sector volume on which every
readable FAT entry is non-zero, a write attempt with a valid name and
non-empty content fails with `Io` (the scan runs off the end of the small
device before its iteration cap), not with `NoSpace`. -/
theorem c2_nospace_counterexample :
    Fat32.mount devFull = .ok ⟨devFull, bpb0⟩ ∧
    ((List.range 128).all fun c =>
      match read_fat_entry devFull bpb0 c with
      | .ok v => v != 0
      | .error _ => true) = true ∧
    errOf (Fat32.write_file_root ⟨devFull, bpb0⟩ 100 nameA [7]) = some .Io ∧
    Error.Io ≠ Error.NoSpace :=
  ⟨by rfl, by decide, by decide, by decide⟩

/-- C2 (amended): on a volume where every FAT entry the free-cluster scan
can touch (clusters 2 up to 1000001) reads back non-zero, any write of
non-empty content under a valid name fails with `NoSpace`. -/
theorem c2_full_fat_write_nospace (d : MemDev) (b : Bpb) (fuel : Nat)
    (name content t : List Nat)
    (hspc : 0 < b.sectors_per_cluster)
    (hname : to_short_name_83 name = .ok t)
    (hcontent : content ≠ [])
    (hfat : ∀ c, 2 ≤ c → c < 1000002 → ∃ v, read_fat_entry d b c = .ok v ∧ v ≠ 0) :
    Fat32.write_file_root ⟨d, b⟩ fuel name content = .error .NoSpace := by
  have hfree : find_free_cluster d b 2 = .error .NoSpace := by
    unfold find_free_cluster
    rw [if_neg (by omega)]
    exact findFreeLoop_nospace d b 1000000 2 (fun c h1 h2 => hfat c h1 (by omega))
  have hlen : 0 < content.length := by
    cases hc : content with
    | nil => exact absurd hc hcontent
    | cons a l => simp [hc]
  have hneeded : clusters_for_len b content.length ≠ 0 := by
    unfold clusters_for_len
    have hb : 0 < b.sectors_per_cluster * 512 := by omega
    have : b.sectors_per_cluster * 512 ≤
        content.length + b.sectors_per_cluster * 512 - 1 := by
      omega
    exact Nat.pos_iff_ne_zero.mp (Nat.div_pos this hb)
  obtain ⟨m, hm⟩ := Nat.exists_eq_succ_of_ne_zero hneeded
  unfold Fat32.write_file_root
  rw [hname]
  dsimp only
  rw [if_neg hneeded, hm]
  unfold allocChain
  rw [hfree]

/-- C2 (witness): on the all-0xFF large device, a concrete write fails with
`NoSpace`. -/
theorem c2_full_fat_write_nospace_witness :
    Fat32.write_file_root ⟨devBig, bpbBig⟩ 100 nameA [7] = .error .NoSpace := by
  refine c2_full_fat_write_nospace devBig bpbBig 100 nameA [7]
    [65, 32, 32, 32, 32, 32, 32, 32, 32, 32, 32] (by decide) (by decide) (by decide) ?_
  intro c h1 h2
  refine ⟨268435455, ?_, by decide⟩
  unfold read_fat_entry readSector
  dsimp only [fat_start_lba, devBig, bpbBig]
  rw [if_pos (by omega : (1 + c * 4 / 512) * 512 + 512 ≤ 4096000)]
  dsimp only
  unfold leU32
  rw [getD_bytesFrom _ _ _ _ _ (by omega : c * 4 % 512 < 512),
      getD_bytesFrom _ _ _ _ _ (by omega : c * 4 % 512 + 1 < 512),
      getD_bytesFrom _ _ _ _ _ (by omega : c * 4 % 512 + 2 < 512),
      getD_bytesFrom _ _ _ _ _ (by omega : c * 4 % 512 + 3 < 512)]
  decide

/-- C3 (code bug): the file `B.BIN` on `devSucc1` has recorded size 600 and
a FAT successor value 1 (below 2, not an end-of-chain marker) after its
first cluster, yet `read_file_root` fails with `Io`, not `Corrupt`: unlike
`list_root`, the read loop passes the successor 1 straight to
`cluster_to_lba`, whose wrapping `(1 - 2)` yields the absurd LBA 4294967297
(a debug build panics on the underflow instead). -/
theorem c3_successor_below_two_io :
    read_fat_entry devSucc1 bpb0 3 = .ok 1 ∧ (1 : Nat) < 2 ∧ ¬ EOC_MIN ≤ 1 ∧
    cluster_to_lba bpb0 1 = 4294967297 ∧
    Fat32.read_file_root ⟨devSucc1, bpb0⟩ 100 nameB = .error .Io ∧
    Error.Io ≠ Error.Corrupt :=
  ⟨by decide, by decide, by decide, by decide, by decide, by decide⟩

/-- C4: whenever the read loop still has bytes outstanding after consuming a
cluster and the cluster's FAT entry is at or above the end-of-chain
threshold, the read fails with `Corrupt`. -/
theorem c4_eoc_while_remaining_corrupt (d : MemDev) (b : Bpb)
    (fuel remaining cluster : Nat) (acc data : List Nat) (r' v : Nat)
    (hrem : remaining ≠ 0)
    (hsec : readClusterSectors d (cluster_to_lba b cluster) b.sectors_per_cluster
      0 remaining acc = .ok (data, r'))
    (hr : r' ≠ 0)
    (hfat : read_fat_entry d b cluster = .ok v)
    (heoc : EOC_MIN ≤ v) :
    readLoop d b (fuel + 1) remaining cluster acc = .error .Corrupt := by
  unfold readLoop
  rw [if_neg hrem, hsec]
  dsimp only
  rw [if_neg hr, hfat]
  dsimp only
  rw [if_pos heoc]

/-- C4 (witness): on `devEoc3` the file `B.BIN` records 600 bytes but its
chain ends at its first cluster; the read loop and the full read fail with
`Corrupt`. -/
theorem c4_eoc_while_remaining_corrupt_witness :
    (600 : Nat) ≠ 0 ∧
    readClusterSectors devEoc3 (cluster_to_lba bpb0 3) bpb0.sectors_per_cluster
      0 600 [] = .ok (List.replicate 512 0, 88) ∧
    (88 : Nat) ≠ 0 ∧
    read_fat_entry devEoc3 bpb0 3 = .ok 268435455 ∧
    EOC_MIN ≤ 268435455 ∧
    readLoop devEoc3 bpb0 10 600 3 [] = .error .Corrupt ∧
    Fat32.read_file_root ⟨devEoc3, bpb0⟩ 100 nameB = .error .Corrupt :=
  ⟨by decide, by decide, by decide, by decide, by decide,
   c4_eoc_while_remaining_corrupt devEoc3 bpb0 9 600 3 [] (List.replicate 512 0)
     88 268435455 (by decide) (by decide) (by decide) (by decide) (by decide),
   by decide⟩

/-- C5: every 512-byte boot sector carrying the 0x55/0xAA trailer,
bytes-per-sector 512, zero root-entry-count and legacy FAT-size fields,
nonzero 32-bit FAT size, root cluster at least 2, power-of-two
sectors-per-cluster and nonzero reserved-sector and FAT counts parses
successfully into exactly its little-endian input fields. -/
theorem c5_parse_valid_boot (boot : List Nat) (k : Nat)
    (_hlen : boot.length = 512)
    (hsig1 : boot.getD 510 0 = 0x55) (hsig2 : boot.getD 511 0 = 0xAA)
    (hbps : leU16 boot 11 = 512)
    (hroot_cnt : leU16 boot 17 = 0)
    (hfat16 : leU16 boot 22 = 0)
    (hfat32 : leU32 boot 36 ≠ 0)
    (hrootc : 2 ≤ leU32 boot 44)
    (hspc : boot.getD 13 0 = 2 ^ k)
    (hres : leU16 boot 14 ≠ 0)
    (hnf : boot.getD 16 0 ≠ 0) :
    Bpb.parse boot = .ok ⟨512, boot.getD 13 0, leU16 boot 14, boot.getD 16 0,
      leU32 boot 32, leU32 boot 36, leU32 boot 44, leU16 boot 48⟩ := by
  unfold Bpb.parse
  rw [if_neg (by push_neg; exact ⟨hsig1, hsig2⟩)]
  rw [if_neg (by simpa using hbps)]
  rw [if_neg (by simpa using hroot_cnt)]
  rw [if_neg (by simpa using hfat16)]
  rw [if_neg (by push_neg; exact ⟨hfat32, by omega⟩)]
  rw [if_neg (by
    push_neg
    constructor
    · rw [hspc]; exact (Nat.two_pow_pos k).ne'
    · rw [hspc, Nat.and_pow_two_sub_one_eq_mod, Nat.mod_self])]
  rw [if_neg (by push_neg; exact ⟨hres, hnf⟩)]
  rw [hbps]

/-- C5 (witness): the tiny volume's boot sector parses to `bpb0`, its exact
field values. -/
theorem c5_parse_valid_boot_witness :
    Bpb.parse ((List.range 512).map bootByte) = .ok bpb0 := by
  rw [c5_parse_valid_boot ((List.range 512).map bootByte) 0 (by simp) (by decide)
    (by decide) (by decide) (by decide) (by decide) (by decide) (by decide)
    (by decide) (by decide) (by decide)]
  decide

/-- C6: every buffer whose bytes at offsets 510 and 511 are not exactly
0x55 and 0xAA fails to parse with `InvalidBootSector`, regardless of all
other bytes. -/
theorem c6_bad_signature_invalid (boot : List Nat)
    (h : boot.getD 510 0 ≠ 0x55 ∨ boot.getD 511 0 ≠ 0xAA) :
    Bpb.parse boot = .error .InvalidBootSector := by
  unfold Bpb.parse
  rw [if_pos h]

/-- C6 (witness): the all-zero buffer misses the signature and is rejected
as an invalid boot sector. -/
theorem c6_bad_signature_invalid_witness :
    (([] : List Nat).getD 510 0 ≠ 0x55 ∨ ([] : List Nat).getD 511 0 ≠ 0xAA) ∧
    Bpb.parse [] = .error .InvalidBootSector :=
  ⟨by decide, c6_bad_signature_invalid [] (by decide)⟩

/-- C7: after a successful FAT-entry write of value `v` for cluster `c`,
reading entry `c` returns `v` masked to 28 bits, and every other cluster's
entry reads exactly as before the write. -/
theorem c7_fat_entry_roundtrip_frame (d : MemDev) (b : Bpb) (c v : Nat)
    (d' : MemDev) (h : write_fat_entry d b c v = .ok d') :
    read_fat_entry d' b c = .ok (v &&& 0x0FFFFFFF) ∧
    ∀ c', c' ≠ c → read_fat_entry d' b c' = read_fat_entry d b c' :=
  ⟨read_after_write_fat_same d b c v d' h,
   fun c' hne => read_after_write_fat_other d b c v d' h c' hne⟩

/-- C7 (witness): writing 0xFFFFFFFF into entry 5 of the tiny volume stores
0x0FFFFFFF there and leaves entry 6 reading 0 as before. -/
theorem c7_fat_entry_roundtrip_frame_witness :
    write_fat_entry dev0 bpb0 5 4294967295 = .ok devW ∧
    read_fat_entry devW bpb0 5 = .ok (4294967295 &&& 0x0FFFFFFF) ∧
    read_fat_entry devW bpb0 6 = read_fat_entry dev0 bpb0 6 ∧
    read_fat_entry devW bpb0 6 = .ok 0 :=
  ⟨by rfl,
   (c7_fat_entry_roundtrip_frame dev0 bpb0 5 4294967295 devW (by rfl)).1,
   (c7_fat_entry_roundtrip_frame dev0 bpb0 5 4294967295 devW (by rfl)).2 6
     (by decide),
   by decide⟩

/-- C8: name normalization succeeds with the space-padded 11-byte form on
exactly the valid 8.3 shapes and fails with `InvalidName` on every other
shape; `a.txt` and `A.TXT` normalize identically, while `toolongname.txt`
and `X.ABCD` are rejected. -/
theorem c8_name_normalization :
    (∀ s, specValid83 s = true → to_short_name_83 s = .ok (shortForm83 s)) ∧
    (∀ s, specValid83 s = false → to_short_name_83 s = .error .InvalidName) ∧
    to_short_name_83 [97, 46, 116, 120, 116] = to_short_name_83 [65, 46, 84, 88, 84] ∧
    to_short_name_83 [116, 111, 111, 108, 111, 110, 103, 110, 97, 109, 101, 46,
      116, 120, 116] = .error .InvalidName ∧
    to_short_name_83 [88, 46, 65, 66, 67, 68] = .error .InvalidName := by
  refine ⟨?_, ?_, by decide, by decide, by decide⟩
  · intro s h
    unfold to_short_name_83
    unfold specValid83 at h
    simp only [Bool.and_eq_true, decide_eq_true_eq, List.all_eq_true,
      Bool.not_eq_true', List.isEmpty_eq_false] at h
    obtain ⟨⟨⟨⟨h1, h2⟩, h3⟩, h4⟩, h5⟩ := h
    rw [if_neg (by push_neg; exact ⟨h1, by omega, by omega⟩)]
    rw [if_pos ⟨List.all_eq_true.mpr h4, List.all_eq_true.mpr h5⟩]
    rfl
  · intro s h
    unfold to_short_name_83
    unfold specValid83 at h
    simp only [Bool.and_eq_false_iff, decide_eq_false_iff_not, Bool.not_eq_false',
      List.isEmpty_iff, List.all_eq_false] at h
    rcases h with ((((h1 | h2) | h3) | h4) | h5)
    · rw [if_pos (Or.inl h1)]
    · rw [if_pos (by omega)]
    · rw [if_pos (by omega)]
    · by_cases hc : (splitDot s).1 = [] ∨ (splitDot s).1.length > 8 ∨
        (splitDot s).2.length > 3
      · rw [if_pos hc]
      · rw [if_neg hc]
        obtain ⟨x, hx, hxe⟩ := h4
        rw [if_neg (fun hall => hxe (List.all_eq_true.mp hall.1 x hx))]
    · by_cases hc : (splitDot s).1 = [] ∨ (splitDot s).1.length > 8 ∨
        (splitDot s).2.length > 3
      · rw [if_pos hc]
      · rw [if_neg hc]
        obtain ⟨x, hx, hxe⟩ := h5
        rw [if_neg (fun hall => hxe (List.all_eq_true.mp hall.2 x hx))]

/-- C8 (witness): the lowercase name `hi` is a valid shape and normalizes to
the uppercased space-padded form. -/
theorem c8_name_normalization_witness :
    specValid83 [104, 105] = true ∧
    to_short_name_83 [104, 105] = .ok (shortForm83 [104, 105]) ∧
    shortForm83 [104, 105] = [72, 73, 32, 32, 32, 32, 32, 32, 32, 32, 32] :=
  ⟨by decide, c8_name_normalization.1 [104, 105] (by decide), by decide⟩

/-- C9: mount, list-root and read-file never write to the device.  In this
embedding the read-only operations are pure functions of the device (they
are built from `readSector` alone, mirroring the `&self` receivers of the
source, and return no device), so the theorem records the observable
consequences: the mounted handle carries the input device unchanged, and
repeated listings or reads of an unchanged volume are identical. -/
theorem c9_read_only_operations :
    (∀ d fs, Fat32.mount d = .ok fs → fs.dev = d) ∧
    (∀ fs fuel, Fat32.list_root fs fuel = Fat32.list_root fs fuel) ∧
    (∀ fs fuel name, Fat32.read_file_root fs fuel name =
      Fat32.read_file_root fs fuel name) := by
  refine ⟨?_, fun _ _ => rfl, fun _ _ _ => rfl⟩
  intro d fs h
  unfold Fat32.mount at h
  cases hr : readSector d 0 with
  | error e => rw [hr] at h; cases h
  | ok boot =>
    rw [hr] at h
    dsimp only at h
    cases hp : Bpb.parse boot with
    | error e => rw [hp] at h; cases h
    | ok b =>
      rw [hp] at h
      cases h
      rfl

/-- C9 (witness): mounting the tiny volume yields a handle whose device is
the input device itself. -/
theorem c9_read_only_operations_witness :
    Fat32.mount dev0 = .ok ⟨dev0, bpb0⟩ ∧ (⟨dev0, bpb0⟩ : Fat32).dev = dev0 :=
  ⟨by rfl, c9_read_only_operations.1 dev0 ⟨dev0, bpb0⟩ (by rfl)⟩

/-- C10: a successful free-cluster search returns a cluster whose FAT entry
was 0, at or above the requested start (and never below 2); each allocation
step marks the found cluster end-of-chain before the next search begins at
the next higher number; hence the chain allocated by a successful write is
strictly increasing and all its clusters are pairwise distinct. -/
theorem c10_allocation_increasing :
    (∀ d b s c, find_free_cluster d b s = .ok c →
      read_fat_entry d b c = .ok 0 ∧ (if s < 2 then 2 else s) ≤ c) ∧
    (∀ d b n s acc r, allocChain b (n + 1) s d acc = .ok r →
      ∃ c d', find_free_cluster d b s = .ok c ∧
        write_fat_entry d b c 0x0FFFFFFF = .ok d' ∧
        allocChain b n (c + 1) d' (acc ++ [c]) = .ok r) ∧
    (∀ d b n s chain d', allocChain b n s d [] = .ok (chain, d') →
      List.Chain' (· < ·) chain ∧ chain.Nodup) := by
  refine ⟨?_, ?_, ?_⟩
  · intro d b s c h
    exact findFreeLoop_ok d b 1000000 (if s < 2 then 2 else s) c h
  · intro d b n s acc r h
    exact allocChain_step d b n s acc r h
  · intro d b n s chain d' h
    have hc := allocChain_chain' b n s d [] chain d' (by intro x hx; cases hx)
      List.chain'_nil h
    refine ⟨hc, ?_⟩
    have hp : List.Pairwise (· < ·) chain := List.chain'_iff_pairwise.mp hc
    exact List.Pairwise.imp (fun hab => Nat.ne_of_lt hab) hp

/-- C10 (witness): on the tiny volume the first search from 2 skips the
occupied root cluster and returns cluster 3, whose entry reads 0. -/
theorem c10_allocation_increasing_witness :
    find_free_cluster dev0 bpb0 2 = .ok 3 ∧
    read_fat_entry dev0 bpb0 3 = .ok 0 ∧ (if 2 < 2 then 2 else 2 : Nat) ≤ 3 :=
  ⟨by decide, (c10_allocation_increasing.1 dev0 bpb0 2 3 (by decide)).1,
   (c10_allocation_increasing.1 dev0 bpb0 2 3 (by decide)).2⟩
